import Mathlib

/-!
Shallow embedding of the static type checker implemented in checker.py:
the TypeChecker ast visitor (visit_Assign, visit_FunctionDef, visit_For,
visit_If, visit_BinOp, visit_Call, infer_type) together with the driver
run_python_checker.  Diagnostics are modelled structurally: each constructor
of Diag corresponds to exactly one message format string of the source.
-/

namespace PyCheck

/-- Python type names accepted as concrete kinds (SUPPORTED_TYPES in checker.py). -/
def SUPPORTED_TYPES : List String := ["int", "float", "str", "bool"]

/-- Names of the regex-family functions special-cased by visit_Call. -/
def REGEX_FUNCS : List String := ["match", "search", "fullmatch", "findall", "finditer"]

/-- Expression nodes of the checked ast fragment.  constant carries the Python
type name of the literal value (the source computes type(node.value).__name__);
attrGet models ast.Attribute with its value sub-expression; other models every
further expression kind, carrying the child expressions generic_visit reaches. -/
inductive Expr where
  | constant (pyType : String) (lineno : Nat)
  | name (id : String) (lineno : Nat)
  | binOp (left : Expr) (right : Expr) (lineno : Nat)
  | attrGet (value : Expr) (attrName : String) (lineno : Nat)
  | call (func : Expr) (args : List Expr) (lineno : Nat)
  | other (children : List Expr) (lineno : Nat)

/-- Statement nodes.  forStmt keeps the target and orelse fields even though
visit_For never visits them; otherStmt models any statement kind without a
dedicated visitor, carrying the children generic_visit reaches. -/
inductive Stmt where
  | assign (targets : List Expr) (value : Expr) (lineno : Nat)
  | functionDef (body : List Stmt)
  | forStmt (target : Expr) (iter : Expr) (body : List Stmt) (orelse : List Stmt)
  | ifStmt (test : Expr) (body : List Stmt) (orelse : List Stmt)
  | exprStmt (value : Expr)
  | otherStmt (exprChildren : List Expr) (stmtChildren : List Stmt)

/-- Structured form of the diagnostic strings appended to TypeChecker.errors
and of the TypeErrorException messages; one constructor per format string. -/
inductive Diag where
  | varTypeMismatch (varName : String) (was : String) (now : String) (lineno : Nat)
  | typeMismatch (lineno : Nat)
  | undefinedVariable (varName : String) (lineno : Nat)
  | regexPatternNotStr (lineno : Nat)
  | regexMatchNotStr (lineno : Nat)
  | regexArity (funcName : String) (lineno : Nat)
deriving DecidableEq

/-- The mutable state of one checking run: the (process-global, per-run reset)
symbol_table dict, modelled as an insertion-ordered association list, and the
errors and warnings lists of the TypeChecker instance. -/
structure Checker where
  symtab : List (String × String)
  errors : List Diag
  warnings : List Diag
deriving DecidableEq

/-- Outcome of run_python_checker: the joined error lines, the success message
with optional warnings block, or the SyntaxError branch. -/
inductive CheckResult where
  | clean (warnings : List Diag)
  | hasErrors (diags : List Diag)
  | parseFailure (msg : String)
deriving DecidableEq

/-- Python dict lookup on the association-list model of symbol_table. -/
def st_lookup : List (String × String) → String → Option String
  | [], _ => none
  | (k, v) :: rest, key => if k = key then some v else st_lookup rest key

/-- TypeChecker.infer_type, with the body of visit_BinOp inlined at the BinOp
case exactly as the source calls it; Except.error models raising
TypeErrorException. -/
def infer_type (symtab : List (String × String)) : Expr → Except Diag String
  | Expr.constant pyType _ =>
      if pyType ∈ SUPPORTED_TYPES then Except.ok pyType else Except.ok ("unknown")
  | Expr.name id lineno =>
      match st_lookup symtab id with
      | some t => Except.ok t
      | none => Except.error (Diag.undefinedVariable id lineno)
  | Expr.binOp left right lineno =>
      match infer_type symtab left with
      | Except.error d => Except.error d
      | Except.ok leftType =>
          match infer_type symtab right with
          | Except.error d => Except.error d
          | Except.ok rightType =>
              if leftType ≠ rightType then Except.error (Diag.typeMismatch lineno)
              else Except.ok leftType
  | Expr.call func _ _ =>
      match func with
      | Expr.name fid _ =>
          if fid ∈ SUPPORTED_TYPES then Except.ok fid else Except.ok ("unknown")
      | _ => Except.ok ("unknown")
  | Expr.attrGet _ _ _ => Except.ok ("unknown")
  | Expr.other _ _ => Except.ok ("unknown")

/-- The regex-family check at the top of visit_Call: on a call whose func is an
Attribute on the bare name re with a regex-family attrName, either record an
arity diagnostic (fewer than two positional arguments) or infer the first two
arguments and record one diagnostic per non-str argument.  The infer_type calls
can raise (Except.error), which the source does not catch here. -/
def regexCallCheck (symtab : List (String × String)) (errors : List Diag)
    (func : Expr) (args : List Expr) (lineno : Nat) : Except Diag (List Diag) :=
  match func with
  | Expr.attrGet (Expr.name vid _) attrName _ =>
      if vid = ("re") ∧ attrName ∈ REGEX_FUNCS then
        match args with
        | a0 :: a1 :: _ =>
            match infer_type symtab a0 with
            | Except.error d => Except.error d
            | Except.ok patternType =>
                match infer_type symtab a1 with
                | Except.error d => Except.error d
                | Except.ok stringType =>
                    Except.ok (errors
                      ++ (if patternType ≠ ("str") then [Diag.regexPatternNotStr lineno] else [])
                      ++ (if stringType ≠ ("str") then [Diag.regexMatchNotStr lineno] else []))
        | _ => Except.ok (errors ++ [Diag.regexArity attrName lineno])
      else Except.ok errors
  | _ => Except.ok errors

mutual
/-- Visiting one expression node, as NodeVisitor.visit dispatches it: BinOp
goes to visit_BinOp (which never visits children), Call goes to visit_Call
(regex check, then generic_visit into func and args), every other expression
kind falls back to generic_visit over its children.  Expression visitors read
symbol_table but never write it, and may append to errors or raise. -/
def visitExpr (symtab : List (String × String)) (errors : List Diag) :
    Expr → Except Diag (List Diag)
  | Expr.constant _ _ => Except.ok errors
  | Expr.name _ _ => Except.ok errors
  | Expr.binOp left right lineno =>
      match infer_type symtab (Expr.binOp left right lineno) with
      | Except.error d => Except.error d
      | Except.ok _ => Except.ok errors
  | Expr.attrGet value _ _ => visitExpr symtab errors value
  | Expr.call func args lineno =>
      match regexCallCheck symtab errors func args lineno with
      | Except.error d => Except.error d
      | Except.ok errs1 =>
          match visitExpr symtab errs1 func with
          | Except.error d => Except.error d
          | Except.ok errs2 => visitExprs symtab errs2 args
  | Expr.other children _ => visitExprs symtab errors children

/-- Visiting a list of child expressions in order (generic_visit). -/
def visitExprs (symtab : List (String × String)) (errors : List Diag) :
    List Expr → Except Diag (List Diag)
  | [] => Except.ok errors
  | e :: rest =>
      match visitExpr symtab errors e with
      | Except.error d => Except.error d
      | Except.ok errs1 => visitExprs symtab errs1 rest
end

/-- The try-block of visit_Assign: when the first target is a plain name,
infer the value, then either report a re-typing mismatch, bind the name, or
(on an inference failure, caught by the except branch) append the exception
message; any other first target is ignored. -/
def assignTarget (c : Checker) (targets : List Expr) (value : Expr) (lineno : Nat) : Checker :=
  match targets with
  | Expr.name varName _ :: _ =>
      match infer_type c.symtab value with
      | Except.ok valueType =>
          match st_lookup c.symtab varName with
          | some storedType =>
              if storedType ≠ valueType then
                { c with errors := c.errors ++ [Diag.varTypeMismatch varName storedType valueType lineno] }
              else c
          | none => { c with symtab := c.symtab ++ [(varName, valueType)] }
      | Except.error d => { c with errors := c.errors ++ [d] }
  | _ => c

mutual
/-- Visiting one statement: visit_Assign (assignTarget, then the uncaught
generic_visit over targets and value), visit_FunctionDef, visit_For (iter and
body only), visit_If, and generic_visit for expression statements and any
other statement kind. -/
def visitStmt (c : Checker) : Stmt → Except Diag Checker
  | Stmt.assign targets value lineno =>
      let c1 := assignTarget c targets value lineno
      match visitExprs c1.symtab c1.errors targets with
      | Except.error d => Except.error d
      | Except.ok errs1 =>
          match visitExpr c1.symtab errs1 value with
          | Except.error d => Except.error d
          | Except.ok errs2 => Except.ok { c1 with errors := errs2 }
  | Stmt.functionDef body => visitStmts c body
  | Stmt.forStmt _ iter body _ =>
      match visitExpr c.symtab c.errors iter with
      | Except.error d => Except.error d
      | Except.ok errs1 => visitStmts { c with errors := errs1 } body
  | Stmt.ifStmt test body orelse =>
      match visitExpr c.symtab c.errors test with
      | Except.error d => Except.error d
      | Except.ok errs1 =>
          match visitStmts { c with errors := errs1 } body with
          | Except.error d => Except.error d
          | Except.ok c2 => visitStmts c2 orelse
  | Stmt.exprStmt value =>
      match visitExpr c.symtab c.errors value with
      | Except.error d => Except.error d
      | Except.ok errs1 => Except.ok { c with errors := errs1 }
  | Stmt.otherStmt exprChildren stmtChildren =>
      match visitExprs c.symtab c.errors exprChildren with
      | Except.error d => Except.error d
      | Except.ok errs1 => visitStmts { c with errors := errs1 } stmtChildren

/-- Visiting the statements of a body in order. -/
def visitStmts (c : Checker) : List Stmt → Except Diag Checker
  | [] => Except.ok c
  | s :: rest =>
      match visitStmt c s with
      | Except.error d => Except.error d
      | Except.ok c1 => visitStmts c1 rest
end

/-- Fresh per-run state: symbol_table reset to the empty dict, fresh
TypeChecker instance with empty errors and warnings. -/
def initialChecker : Checker := { symtab := [], errors := [], warnings := [] }

/-- run_python_checker.  The first argument is the process-global symbol_table
left over from before the run; the body resets it to empty before doing
anything else, exactly as the source assigns the fresh dict.  The parsed
argument is the outcome of the external ast.parse: a SyntaxError message or a
Module body.  The outer Except models a TypeErrorException escaping the run
(only SyntaxError is caught by the source). -/
def run_python_checker (_symbol_table_before : List (String × String))
    (parsed : Except String (List Stmt)) : Except Diag CheckResult :=
  match parsed with
  | Except.error msg => Except.ok (CheckResult.parseFailure msg)
  | Except.ok body =>
      match visitStmts initialChecker body with
      | Except.error d => Except.error d
      | Except.ok c =>
          if c.errors = [] then Except.ok (CheckResult.clean c.warnings)
          else Except.ok (CheckResult.hasErrors c.errors)

/-- The codomain of type inference: the four supported kinds plus the sentinel. -/
abbrev TypeUniverse : List String := SUPPORTED_TYPES ++ [("unknown")]

/-- Every value stored in the symbol table lies in the inference codomain. -/
abbrev TableOk (st : List (String × String)) : Prop :=
  ∀ p ∈ st, p.2 ∈ TypeUniverse

/-- True for every diagnostic except the re-typing mismatch recorded by
visit_Assign on an already-bound name. -/
def noVTM : Diag → Bool
  | Diag.varTypeMismatch _ _ _ _ => false
  | _ => true

/-- errs' is errs extended on the right with diagnostics, none of which is a
re-typing mismatch. -/
def ErrExt (errs errs' : List Diag) : Prop :=
  ∃ ext, errs' = errs ++ ext ∧ ∀ d ∈ ext, noVTM d = true

theorem ErrExt_refl (errs : List Diag) : ErrExt errs errs :=
  ⟨[], by simp⟩

theorem ErrExt_trans {e1 e2 e3 : List Diag} (h12 : ErrExt e1 e2) (h23 : ErrExt e2 e3) :
    ErrExt e1 e3 := by
  obtain ⟨x, hx, hxall⟩ := h12
  obtain ⟨y, hy, hyall⟩ := h23
  refine ⟨x ++ y, ?_, ?_⟩
  · rw [hy, hx, List.append_assoc]
  · intro d hd
    rcases List.mem_append.1 hd with h | h
    · exact hxall d h
    · exact hyall d h

theorem st_lookup_mem : ∀ (st : List (String × String)) (k v : String),
    st_lookup st k = some v → (k, v) ∈ st
  | [], _, _, h => by simp [st_lookup] at h
  | (k0, v0) :: rest, k, v, h => by
      by_cases hk : k0 = k
      · subst hk
        simp [st_lookup] at h
        subst h
        exact List.mem_cons_self _ _
      · simp only [st_lookup, if_neg hk] at h
        exact List.mem_cons_of_mem _ (st_lookup_mem rest k v h)

theorem infer_type_mem (symtab : List (String × String)) (hst : TableOk symtab) :
    ∀ (e : Expr) (t : String), infer_type symtab e = Except.ok t → t ∈ TypeUniverse
  | Expr.constant pyType ln, t, h => by
      simp only [infer_type] at h
      split at h
      · cases h
        rename_i hmem
        exact List.mem_append_left _ hmem
      · cases h
        simp [TypeUniverse]
  | Expr.name id ln, t, h => by
      simp only [infer_type] at h
      split at h
      · cases h
        rename_i hlk
        exact hst _ (st_lookup_mem symtab id t hlk)
      · cases h
  | Expr.binOp l r ln, t, h => by
      simp only [infer_type] at h
      split at h
      · cases h
      · rename_i leftType hleft
        split at h
        · cases h
        · rename_i rightType hright
          split at h
          · cases h
          · cases h
            exact infer_type_mem symtab hst l _ hleft
  | Expr.call func args ln, t, h => by
      simp only [infer_type] at h
      split at h
      · rename_i fid fln
        split at h
        · cases h
          rename_i hmem
          exact List.mem_append_left _ hmem
        · cases h
          simp [TypeUniverse]
      · cases h
        simp [TypeUniverse]
  | Expr.attrGet v a ln, t, h => by
      simp only [infer_type] at h
      cases h
      simp [TypeUniverse]
  | Expr.other children ln, t, h => by
      simp only [infer_type] at h
      cases h
      simp [TypeUniverse]

theorem regexCallCheck_errExt (symtab : List (String × String)) (errors : List Diag)
    (func : Expr) (args : List Expr) (lineno : Nat) (errs' : List Diag)
    (h : regexCallCheck symtab errors func args lineno = Except.ok errs') :
    ErrExt errors errs' := by
  unfold regexCallCheck at h
  split at h
  · split at h
    · split at h
      · split at h
        · cases h
        · split at h
          · cases h
          · cases h
            refine ⟨_, List.append_assoc _ _ _, ?_⟩
            intro d hd
            rcases List.mem_append.1 hd with hd1 | hd1 <;>
              · split at hd1 <;> simp only [List.mem_singleton, List.not_mem_nil] at hd1
                · subst hd1; rfl
      · cases h
        exact ⟨_, rfl, by intro d hd; simp only [List.mem_singleton] at hd; subst hd; rfl⟩
    · cases h
      exact ErrExt_refl _
  · cases h
    exact ErrExt_refl _

mutual
theorem visitExpr_errExt (symtab : List (String × String)) :
    ∀ (errors : List Diag) (e : Expr) (errs' : List Diag),
      visitExpr symtab errors e = Except.ok errs' → ErrExt errors errs'
  | errors, Expr.constant _ _, errs', h => by
      cases h; exact ErrExt_refl _
  | errors, Expr.name _ _, errs', h => by
      cases h; exact ErrExt_refl _
  | errors, Expr.binOp l r ln, errs', h => by
      simp only [visitExpr] at h
      split at h
      · cases h
      · cases h; exact ErrExt_refl _
  | errors, Expr.attrGet v a ln, errs', h => by
      simp only [visitExpr] at h
      exact visitExpr_errExt symtab errors v errs' h
  | errors, Expr.call func args ln, errs', h => by
      simp only [visitExpr] at h
      split at h
      · cases h
      · rename_i errs1 h1
        split at h
        · cases h
        · rename_i errs2 h2
          exact ErrExt_trans (regexCallCheck_errExt symtab errors func args ln errs1 h1)
            (ErrExt_trans (visitExpr_errExt symtab errs1 func errs2 h2)
              (visitExprs_errExt symtab errs2 args errs' h))
  | errors, Expr.other children ln, errs', h => by
      simp only [visitExpr] at h
      exact visitExprs_errExt symtab errors children errs' h

theorem visitExprs_errExt (symtab : List (String × String)) :
    ∀ (errors : List Diag) (es : List Expr) (errs' : List Diag),
      visitExprs symtab errors es = Except.ok errs' → ErrExt errors errs'
  | errors, [], errs', h => by
      cases h; exact ErrExt_refl _
  | errors, e :: rest, errs', h => by
      simp only [visitExprs] at h
      split at h
      · cases h
      · rename_i errs1 h1
        exact ErrExt_trans (visitExpr_errExt symtab errors e errs1 h1)
          (visitExprs_errExt symtab errs1 rest errs' h)
end

theorem assignTarget_tableOk (c : Checker) (targets : List Expr) (value : Expr)
    (lineno : Nat) (hst : TableOk c.symtab) :
    TableOk (assignTarget c targets value lineno).symtab := by
  unfold assignTarget
  split
  · rename_i varName vln rest
    split
    · rename_i valueType hinf
      split
      · split
        · exact hst
        · exact hst
      · intro p hp
        rcases List.mem_append.1 hp with hp1 | hp1
        · exact hst p hp1
        · simp only [List.mem_singleton] at hp1
          subst hp1
          exact infer_type_mem c.symtab hst value valueType hinf
    · exact hst
  · exact hst

theorem visitStmt_assign_symtab (c : Checker) (targets : List Expr) (value : Expr)
    (lineno : Nat) (c' : Checker)
    (h : visitStmt c (Stmt.assign targets value lineno) = Except.ok c') :
    c'.symtab = (assignTarget c targets value lineno).symtab := by
  simp only [visitStmt] at h
  split at h
  · cases h
  · split at h
    · cases h
    · cases h
      rfl

mutual
theorem visitStmt_tableOk :
    ∀ (c : Checker) (s : Stmt) (c' : Checker), TableOk c.symtab →
      visitStmt c s = Except.ok c' → TableOk c'.symtab
  | c, Stmt.assign targets value lineno, c', hst, h => by
      rw [visitStmt_assign_symtab c targets value lineno c' h]
      exact assignTarget_tableOk c targets value lineno hst
  | c, Stmt.functionDef body, c', hst, h => by
      simp only [visitStmt] at h
      exact visitStmts_tableOk c body c' hst h
  | c, Stmt.forStmt tgt iter body orelse, c', hst, h => by
      simp only [visitStmt] at h
      split at h
      · cases h
      · exact visitStmts_tableOk _ body c' (by exact hst) h
  | c, Stmt.ifStmt test body orelse, c', hst, h => by
      simp only [visitStmt] at h
      split at h
      · cases h
      · rename_i errs1 h1
        split at h
        · cases h
        · rename_i c2 h2
          exact visitStmts_tableOk c2 orelse c' (visitStmts_tableOk _ body c2 (by exact hst) h2) h
  | c, Stmt.exprStmt value, c', hst, h => by
      simp only [visitStmt] at h
      split at h
      · cases h
      · cases h
        exact hst
  | c, Stmt.otherStmt exprChildren stmtChildren, c', hst, h => by
      simp only [visitStmt] at h
      split at h
      · cases h
      · exact visitStmts_tableOk _ stmtChildren c' (by exact hst) h

theorem visitStmts_tableOk :
    ∀ (c : Checker) (ss : List Stmt) (c' : Checker), TableOk c.symtab →
      visitStmts c ss = Except.ok c' → TableOk c'.symtab
  | c, [], c', hst, h => by
      cases h; exact hst
  | c, s :: rest, c', hst, h => by
      simp only [visitStmts] at h
      split at h
      · cases h
      · rename_i c1 h1
        exact visitStmts_tableOk c1 rest c' (visitStmt_tableOk c s c1 hst h1) h
end

/-- C1: the claim that every successfully parsed source yields a CheckResult,
with undefined-variable, type-mismatch and regex-argument violations always
downgraded to diagnostics, fails on the code: in a regex-family call whose
first argument is an undefined name, visit_Call calls infer_type outside any
handler, and the raised TypeErrorException escapes run_python_checker (which
catches only SyntaxError).  This theorem evaluates the checker at that input:
the run ends in an escaped exception, not a CheckResult. -/
theorem C1_undefined_in_regex_call_escapes_run :
    run_python_checker []
      (Except.ok [Stmt.exprStmt
        (Expr.call (Expr.attrGet (Expr.name ("re") 1) ("match") 1)
          [Expr.name ("x") 1, Expr.constant ("str") 1] 1)])
      = Except.error (Diag.undefinedVariable ("x") 1) := rfl

/-- C2: the claim that checking the single assignment of 1 + a string literal
to a produces a CheckResult with exactly one TypeMismatch diagnostic fails on
the code: visit_Assign catches the first TypeErrorException and records the
diagnostic, but its closing generic_visit re-dispatches visit_BinOp on the
value, which raises again outside the try block, and the exception escapes
run_python_checker.  This theorem evaluates the checker at that input: the
run ends in an escaped exception, not a CheckResult. -/
theorem C2_mismatch_assignment_escapes_run :
    run_python_checker []
      (Except.ok [Stmt.assign [Expr.name ("a") 1]
        (Expr.binOp (Expr.constant ("int") 1) (Expr.constant ("str") 1) 1) 1])
      = Except.error (Diag.typeMismatch 1) := rfl

/-- C3 counterexample: the sentinel unknown does not suppress comparison.  A
binary operation with an unknown operand and an int operand fails with a type
mismatch, and re-binding a name stored as unknown to an int value produces a
re-typing diagnostic, contradicting the claim that no TypeMismatch diagnostic
or failure results when one compared type is unknown. -/
theorem C3_counterexample :
    infer_type [] (Expr.binOp (Expr.other [] 1) (Expr.constant ("int") 1) 1)
        = Except.error (Diag.typeMismatch 1)
    ∧ run_python_checker []
        (Except.ok [Stmt.assign [Expr.name ("x") 1] (Expr.other [] 1) 1,
                    Stmt.assign [Expr.name ("x") 2] (Expr.constant ("int") 2) 2])
        = Except.ok (CheckResult.hasErrors [Diag.varTypeMismatch ("x") ("unknown") ("int") 2]) :=
  ⟨rfl, rfl⟩

/-- C3 amended: unknown participates in both comparisons exactly like a
concrete kind, as a plain string.  A binary operation whose operands infer
successfully fails with a type mismatch precisely when the two inferred type
strings differ (so unknown vs int mismatches while unknown vs unknown does
not), and an assignment re-binding a bound name appends a re-typing
diagnostic precisely when the stored and newly inferred type strings differ. -/
theorem C3_unknown_compared_like_any_type
    (symtab : List (String × String)) (l r : Expr) (ln : Nat) (lt rt : String)
    (hl : infer_type symtab l = Except.ok lt) (hr : infer_type symtab r = Except.ok rt)
    (c : Checker) (v : String) (tln : Nat) (rest : List Expr) (value : Expr)
    (lineno : Nat) (stored vt : String)
    (hlk : st_lookup c.symtab v = some stored)
    (hinf : infer_type c.symtab value = Except.ok vt) :
    infer_type symtab (Expr.binOp l r ln)
      = (if lt = rt then Except.ok lt else Except.error (Diag.typeMismatch ln))
    ∧ assignTarget c (Expr.name v tln :: rest) value lineno
      = (if stored = vt then c
         else { c with errors := c.errors ++ [Diag.varTypeMismatch v stored vt lineno] }) := by
  constructor
  · simp only [infer_type]
    rw [hl, hr]
    by_cases hq : lt = rt
    · simp [hq]
    · simp [hq]
  · simp only [assignTarget]
    rw [hinf, hlk]
    by_cases hq : stored = vt
    · simp [hq]
    · simp [hq]

/-- C3 witness: the amended statement applied at an unknown-vs-int binary
operation and at a re-binding from unknown to int. -/
theorem C3_unknown_compared_like_any_type_witness :
    infer_type [] (Expr.binOp (Expr.other [] 3) (Expr.constant ("int") 3) 3)
      = (if ("unknown") = ("int") then Except.ok ("unknown")
         else Except.error (Diag.typeMismatch 3))
    ∧ assignTarget ⟨[("x", "unknown")], [], []⟩ [Expr.name ("x") 4] (Expr.constant ("int") 4) 4
      = (if ("unknown") = ("int") then (⟨[("x", "unknown")], [], []⟩ : Checker)
         else ⟨[("x", "unknown")], [Diag.varTypeMismatch ("x") ("unknown") ("int") 4], []⟩) :=
  C3_unknown_compared_like_any_type [] (Expr.other [] 3) (Expr.constant ("int") 3) 3
    ("unknown") ("int") rfl rfl ⟨[("x", "unknown")], [], []⟩ ("x") 4 []
    (Expr.constant ("int") 4) 4 ("unknown") ("int") rfl rfl

/-- C4 counterexample: a multi-target assignment whose first target is a plain
name is not silently ignored.  Assigning an int literal to the two targets x
and y binds x in the symbol table, and a multi-target assignment from an
undefined name appends a diagnostic, contradicting the claim that no
diagnostic and no symbol-table update occurs for any multi-target assignment. -/
theorem C4_counterexample :
    visitStmt initialChecker
        (Stmt.assign [Expr.name ("x") 1, Expr.name ("y") 1] (Expr.constant ("int") 1) 1)
      = Except.ok ⟨[("x", "int")], [], []⟩
    ∧ visitStmt initialChecker
        (Stmt.assign [Expr.name ("x") 1, Expr.name ("y") 1] (Expr.name ("z") 1) 1)
      = Except.ok ⟨[], [Diag.undefinedVariable ("z") 1], []⟩
    ∧ ([("x", "int")] : List (String × String)) ≠ [] :=
  ⟨rfl, rfl, by simp⟩

/-- C4 amended: only an assignment whose FIRST target is not a plain name is
ignored by the assignment rule: the try-block of visit_Assign then changes
nothing (no diagnostic, no symbol-table update), and the whole statement visit
leaves the symbol table unchanged (sub-expressions are still generically
visited and may append their own non-assignment diagnostics).  An assignment
whose first target is a plain name — even a multi-target one — is processed
for that first name. -/
theorem C4_non_name_first_target_ignored
    (c : Checker) (targets : List Expr) (value : Expr) (lineno : Nat)
    (hfirst : ∀ v l, targets.head? ≠ some (Expr.name v l)) :
    assignTarget c targets value lineno = c
    ∧ ∀ c', visitStmt c (Stmt.assign targets value lineno) = Except.ok c' →
        c'.symtab = c.symtab := by
  have hAT : assignTarget c targets value lineno = c := by
    unfold assignTarget
    split
    · rename_i varName vln rest
      exact absurd rfl (hfirst varName vln)
    · rfl
  refine ⟨hAT, ?_⟩
  intro c' h
  have hsym := visitStmt_assign_symtab c targets value lineno c' h
  rw [hAT] at hsym
  exact hsym

/-- C4 witness: the amended statement applied to a destructuring assignment
with a tuple target. -/
theorem C4_non_name_first_target_ignored_witness :
    assignTarget initialChecker [Expr.other [Expr.name ("a") 1, Expr.name ("b") 1] 1]
        (Expr.constant ("int") 1) 1 = initialChecker
    ∧ (⟨[], [], []⟩ : Checker).symtab = initialChecker.symtab :=
  have h := C4_non_name_first_target_ignored initialChecker
    [Expr.other [Expr.name ("a") 1, Expr.name ("b") 1] 1] (Expr.constant ("int") 1) 1
    (by intro v l hh; injection hh with h2; exact Expr.noConfusion h2)
  ⟨h.1, h.2 ⟨[], [], []⟩ rfl⟩

/-- C5: re-assigning a name already bound to a different type than the newly
inferred one appends exactly one re-typing diagnostic carrying the variable,
the stored type, the new type and the line, and leaves the symbol table
unchanged: the try-block of visit_Assign appends exactly that diagnostic, and
across the whole statement visit the table is untouched and exactly one more
diagnostic of that form is present (the generically visited children never
append re-typing diagnostics). -/
theorem C5_rebind_mismatch_appends_one_diag
    (c : Checker) (v : String) (tln : Nat) (rest : List Expr) (value : Expr)
    (lineno : Nat) (stored vt : String)
    (hlk : st_lookup c.symtab v = some stored)
    (hinf : infer_type c.symtab value = Except.ok vt)
    (hne : vt ≠ stored) :
    assignTarget c (Expr.name v tln :: rest) value lineno
      = { c with errors := c.errors ++ [Diag.varTypeMismatch v stored vt lineno] }
    ∧ ∀ c', visitStmt c (Stmt.assign (Expr.name v tln :: rest) value lineno) = Except.ok c' →
        c'.symtab = c.symtab
        ∧ List.count (Diag.varTypeMismatch v stored vt lineno) c'.errors
            = List.count (Diag.varTypeMismatch v stored vt lineno) c.errors + 1 := by
  have hAT : assignTarget c (Expr.name v tln :: rest) value lineno
      = { c with errors := c.errors ++ [Diag.varTypeMismatch v stored vt lineno] } := by
    simp only [assignTarget]
    simp only [hinf, hlk]
    rw [if_pos (Ne.symm hne)]
  refine ⟨hAT, ?_⟩
  intro c' h
  have hsym := visitStmt_assign_symtab c _ value lineno c' h
  rw [hAT] at hsym
  refine ⟨hsym, ?_⟩
  simp only [visitStmt] at h
  rw [hAT] at h
  split at h
  · cases h
  · rename_i errs1 h1
    split at h
    · cases h
    · rename_i errs2 h2
      cases h
      have hx1 := visitExprs_errExt _ _ _ _ h1
      have hx2 := visitExpr_errExt _ _ _ _ h2
      obtain ⟨ext, hext, hall⟩ := ErrExt_trans hx1 hx2
      simp only [hext]
      have hnotmem : Diag.varTypeMismatch v stored vt lineno ∉ ext := by
        intro hmem
        have := hall _ hmem
        simp [noVTM] at this
      rw [List.count_append, List.count_append, List.count_singleton_self,
        List.count_eq_zero_of_not_mem hnotmem]

/-- C5 witness: the statement applied to re-binding x, stored as str, to an
int literal. -/
theorem C5_rebind_mismatch_appends_one_diag_witness :
    assignTarget ⟨[("x", "str")], [], []⟩ [Expr.name ("x") 2] (Expr.constant ("int") 2) 2
      = ⟨[("x", "str")], [Diag.varTypeMismatch ("x") ("str") ("int") 2], []⟩
    ∧ ((⟨[("x", "str")], [Diag.varTypeMismatch ("x") ("str") ("int") 2], []⟩ : Checker).symtab
          = [("x", "str")]
        ∧ List.count (Diag.varTypeMismatch ("x") ("str") ("int") 2)
            [Diag.varTypeMismatch ("x") ("str") ("int") 2]
          = List.count (Diag.varTypeMismatch ("x") ("str") ("int") 2) ([] : List Diag) + 1) :=
  have h := C5_rebind_mismatch_appends_one_diag ⟨[("x", "str")], [], []⟩ ("x") 2 []
    (Expr.constant ("int") 2) 2 ("str") ("int") rfl rfl (by decide)
  ⟨h.1, h.2 ⟨[("x", "str")], [Diag.varTypeMismatch ("x") ("str") ("int") 2], []⟩ rfl⟩

/-- C6: checking the single statement assigning the never-bound name x to y
produces exactly one undefined-variable diagnostic naming x and its line, and
binds neither y nor x: the run returns that single diagnostic whatever global
table was left from before, and the final symbol table of the walk is empty. -/
theorem C6_undefined_rhs_one_diag_no_binding :
    ∀ g : List (String × String),
      run_python_checker g
          (Except.ok [Stmt.assign [Expr.name ("y") 1] (Expr.name ("x") 1) 1])
        = Except.ok (CheckResult.hasErrors [Diag.undefinedVariable ("x") 1])
      ∧ visitStmts initialChecker [Stmt.assign [Expr.name ("y") 1] (Expr.name ("x") 1) 1]
        = Except.ok ⟨[], [Diag.undefinedVariable ("x") 1], []⟩ :=
  fun _ => ⟨rfl, rfl⟩

/-- C7: for a regex-family call on the fixed receiver re, fewer than two
positional arguments append exactly one arity diagnostic naming the function
and line; with at least two positional arguments whose first two infer
successfully, one diagnostic is appended per argument among the first two
whose inferred type is not str; an int pattern literal with a str subject
literal yields exactly one diagnostic. -/
theorem C7_regex_call_arity_and_arg_types
    (symtab : List (String × String)) (errors : List Diag) (fname : String)
    (vln aln lineno : Nat) (hf : fname ∈ REGEX_FUNCS) :
    (∀ args : List Expr, args.length < 2 →
      regexCallCheck symtab errors (Expr.attrGet (Expr.name ("re") vln) fname aln) args lineno
        = Except.ok (errors ++ [Diag.regexArity fname lineno]))
    ∧ (∀ (a0 a1 : Expr) (rest : List Expr) (t0 t1 : String),
        infer_type symtab a0 = Except.ok t0 → infer_type symtab a1 = Except.ok t1 →
        regexCallCheck symtab errors (Expr.attrGet (Expr.name ("re") vln) fname aln)
            (a0 :: a1 :: rest) lineno
          = Except.ok (errors
              ++ (if t0 ≠ ("str") then [Diag.regexPatternNotStr lineno] else [])
              ++ (if t1 ≠ ("str") then [Diag.regexMatchNotStr lineno] else [])))
    ∧ visitExpr [] []
        (Expr.call (Expr.attrGet (Expr.name ("re") 1) ("match") 1)
          [Expr.constant ("int") 1, Expr.constant ("str") 1] 1)
        = Except.ok [Diag.regexPatternNotStr 1] := by
  refine ⟨?_, ?_, rfl⟩
  · intro args hlen
    simp only [regexCallCheck, true_and]
    rw [if_pos hf]
    rcases args with _ | ⟨a0, _ | ⟨a1, rest⟩⟩
    · rfl
    · rfl
    · simp only [List.length_cons] at hlen
      omega
  · intro a0 a1 rest t0 t1 h0 h1
    simp only [regexCallCheck, true_and]
    rw [if_pos hf]
    simp only [h0, h1]

/-- C7 witness: the statement applied to a one-argument search call and to a
match call with int pattern and str subject. -/
theorem C7_regex_call_arity_and_arg_types_witness :
    regexCallCheck [] [] (Expr.attrGet (Expr.name ("re") 1) ("search") 1) [] 1
      = Except.ok [Diag.regexArity ("search") 1]
    ∧ regexCallCheck [] [] (Expr.attrGet (Expr.name ("re") 1) ("match") 1)
        [Expr.constant ("int") 1, Expr.constant ("str") 1] 1
      = Except.ok [Diag.regexPatternNotStr 1] :=
  have hs := C7_regex_call_arity_and_arg_types [] [] ("search") 1 1 1 (by decide)
  have hm := C7_regex_call_arity_and_arg_types [] [] ("match") 1 1 1 (by decide)
  ⟨hs.1 [] (by decide),
   by
     have := hm.2.1 (Expr.constant ("int") 1) (Expr.constant ("str") 1) []
       ("int") ("str") rfl rfl
     simpa using this⟩

/-- C8: when the source does not parse, the run returns the syntax-failure
outcome carrying the parser message and nothing else: no tree walk happens,
so the result is never the diagnostics-carrying outcome, whatever global
table was left from before. -/
theorem C8_parse_failure_short_circuits :
    ∀ (g : List (String × String)) (msg : String),
      run_python_checker g (Except.error msg) = Except.ok (CheckResult.parseFailure msg)
      ∧ ∀ ds : List Diag,
          run_python_checker g (Except.error msg) ≠ Except.ok (CheckResult.hasErrors ds) :=
  fun _ _ => ⟨rfl, fun _ h => CheckResult.noConfusion (Except.ok.inj h)⟩

/-- C9: the checker is deterministic across runs: because run_python_checker
resets the global symbol table before doing anything, two runs on the same
parsed source started from any two leftover global tables (in particular, a
fresh one and the one the previous run left behind) return identical results. -/
theorem C9_fresh_state_determinism
    (g1 g2 : List (String × String)) (parsed : Except String (List Stmt)) :
    run_python_checker g1 parsed = run_python_checker g2 parsed := rfl

/-- C10: symbol-table codomain invariant: every value ever stored in the
symbol table is one of int, float, str, bool or unknown.  Every statement
visit preserves the invariant (expression visits never write the table), and
the table reached after walking any statement list of a run, which starts
from the empty table, satisfies it. -/
theorem C10_symbol_table_codomain_invariant :
    (∀ (c : Checker) (s : Stmt) (c' : Checker), TableOk c.symtab →
        visitStmt c s = Except.ok c' → TableOk c'.symtab)
    ∧ (∀ (body : List Stmt) (c' : Checker),
        visitStmts initialChecker body = Except.ok c' → TableOk c'.symtab) :=
  ⟨visitStmt_tableOk,
   fun body c' h =>
     visitStmts_tableOk initialChecker body c' (by intro p hp; cases hp) h⟩

/-- C10 witness: the invariant transported across a concrete assignment visit. -/
theorem C10_symbol_table_codomain_invariant_witness :
    TableOk ((⟨[("x", "int"), ("y", "str")], [], []⟩ : Checker).symtab) :=
  C10_symbol_table_codomain_invariant.1 ⟨[("x", "int")], [], []⟩
    (Stmt.assign [Expr.name ("y") 1] (Expr.constant ("str") 1) 1)
    ⟨[("x", "int"), ("y", "str")], [], []⟩
    (by decide) rfl

end PyCheck
